import Mathlib

/-!
Verification development for the telegram-file-compiler-bot repository.

The repository contains two parallel implementations of several components:
the self-contained `bot.py` (with inline `Config`, `Utils`, `ArchiveManager`
classes and the `FileCompilationBot` orchestration) and the standalone
modules `archive_manager.py` and `utils.py`.  Both are embedded here:
- namespace `Config`  : bot.py's `Config` class constants,
- namespace `Utils`   : bot.py's `Utils` class,
- namespace `PyUtils` : the standalone `utils.py` module,
- namespace `BotAM`   : bot.py's inline `ArchiveManager`,
- namespace `AM`      : the standalone `archive_manager.py` module,
- namespace `Bot`     : `FileCompilationBot`'s session operations.

External effects (the Telegram transport, the filesystem, and the codec
libraries zipfile / py7zr / tarfile / patool) are modelled by explicit
inputs: the on-disk state is a list of existing paths, a download or a
codec call is an `Option` value (`none` models a raised exception, which
the source catches at the operation boundary), and the directory tree
materialized by an extraction is an explicit `FsTree` forest.
-/

/- ===== Python string-primitive modelling ===== -/

/-- Model of `os.path.join(a, b)` for a relative second component. -/
def pjoin (a b : String) : String := a ++ "/" ++ b

/-- Model of Python's `str.endswith(suffix)`. -/
def pyEndswith (s suffix : String) : Bool :=
  suffix.data.isSuffixOf s.data

/-- Model of Python's `str.startswith(prefixStr)`. -/
def pyStartswith (s prefixStr : String) : Bool :=
  prefixStr.data.isPrefixOf s.data

/-- Model of Python's `str.lower` (ASCII fragment; the repository only
lowercases filename extensions, which are ASCII). -/
def pyLower (s : String) : String := ⟨s.data.map Char.toLower⟩

/-- Index of the last occurrence of `'.'` in a character list, if any. -/
def lastDot : List Char → Option Nat
  | [] => none
  | c :: cs =>
    match lastDot cs with
    | some i => some (i + 1)
    | none => if c = '.' then some 0 else none

/-- Model of `os.path.splitext` on a path with no directory part: split at
the last dot, except that leading dots do not begin an extension
(`splitext(".bashrc") = (".bashrc", "")`). -/
def splitext (s : String) : String × String :=
  match lastDot s.data with
  | none => (s, "")
  | some i =>
    if (s.data.take i).all (fun c => c = '.') then (s, "")
    else (⟨s.data.take i⟩, ⟨s.data.drop i⟩)

/- ===== Data model ===== -/

/-- A stored file as recorded in a user session: the dicts
`{'name': ..., 'path': ..., 'size': ...}` appended to
`user_session['files']` in bot.py. -/
structure FileRecord where
  name : String
  path : String
  size : Nat
deriving Repr, DecidableEq

/- ===== bot.py: class Config ===== -/

namespace Config

/-- bot.py line 16: `MAX_FILE_SIZE = 50 * 1024 * 1024`. -/
def MAX_FILE_SIZE : Nat := 50 * 1024 * 1024

/-- bot.py line 17: `MAX_FILES_PER_USER = 100`. -/
def MAX_FILES_PER_USER : Nat := 100

/-- bot.py line 18: `TEMP_DIR = "temp_files"`. -/
def TEMP_DIR : String := "temp_files"

end Config

/- ===== bot.py: class Utils ===== -/

namespace Utils

/-- bot.py line 60: `size_names = ["B", "KB", "MB", "GB"]`. -/
def size_names : List String := ["B", "KB", "MB", "GB"]

/-- The division loop of `Utils.format_file_size` (bot.py lines 61-64,
identical in utils.py lines 22-26):
`while size_bytes >= 1024 and i < len(size_names) - 1: size_bytes /= 1024.0; i += 1`.
The running value is modelled as an exact rational (the source divides an
IEEE double by 1024; the properties proved here - iteration count, chosen
unit - do not depend on the rounding of that division). -/
def ffsLoop (size_bytes : ℚ) (i : Nat) : ℚ × Nat :=
  if h : 1024 ≤ size_bytes ∧ i < size_names.length - 1 then
    ffsLoop (size_bytes / 1024) (i + 1)
  else
    (size_bytes, i)
termination_by size_names.length - 1 - i
decreasing_by
  simp only [size_names, List.length] at *
  omega

/-- Rendering of `f"{x:.2f}"`: the value rounded to two decimal places
(the source formats an IEEE double; this exact-rational rendering is the
idealization, and no claim proved here depends on the digits). -/
def fmt2 (q : ℚ) : String :=
  let c : Int := ⌊q * 100 + 1 / 2⌋
  let whole := c / 100
  let frac := (c % 100).natAbs
  toString whole ++ "." ++ (if frac < 10 then "0" else "") ++ toString frac

/-- bot.py lines 54-66 / utils.py lines 17-28: `format_file_size`. -/
def format_file_size (size_bytes : Nat) : String :=
  if size_bytes = 0 then "0 B"
  else
    let r := ffsLoop (size_bytes : ℚ) 0
    fmt2 r.1 ++ " " ++ size_names.getD r.2 ""

/-- ASCII word character, the ASCII fragment of Python's regex `\w`
(Python's `\w` additionally matches non-ASCII Unicode word characters;
`'/'` and `'\'` are non-word characters in either reading). -/
def isAsciiWordChar (c : Char) : Bool :=
  c.isAlpha || c.isDigit || c = '_'

/-- bot.py lines 68-72: `safe_filename`, i.e.
`re.sub(r'[^\w\.-]', '_', filename)`: every character that is not a word
character, a dot or a hyphen is replaced by an underscore.  Modelled on
the ASCII fragment of `\w` (see `isAsciiWordChar`). -/
def safe_filename (filename : String) : String :=
  ⟨filename.data.map (fun c =>
    if isAsciiWordChar c || c = '.' || c = '-' then c else '_')⟩

end Utils

/- ===== utils.py (standalone module) ===== -/

namespace PyUtils

/-- The segment of a character list after its last `'/'`; the accumulator
is reset whenever a separator is passed, matching
`posixpath.basename(p) = p[p.rfind('/') + 1 :]`. -/
def basenameList (cs : List Char) : List Char :=
  cs.foldl (fun acc c => if c = '/' then [] else acc ++ [c]) []

/-- utils.py lines 30-32: `safe_filename(filename) = os.path.basename(filename)`
(POSIX basename: only `'/'` is a separator; backslashes are kept). -/
def safe_filename (filename : String) : String :=
  ⟨basenameList filename.data⟩

end PyUtils

/- ===== Filesystem trees (the directory tree an extraction materializes) ===== -/

/-- A node of the directory tree produced on disk by an extraction: a
regular file with its on-disk byte size (what `os.path.getsize` returns
for it), or a subdirectory with its entries. -/
inductive FsTree where
  | file (nm : String) (size : Nat)
  | dir (nm : String) (entries : List FsTree)

mutual

/-- The `os.walk` + `os.path.getsize` pass of bot.py lines 190-199 and
214-222: one record per regular file under `root`, with `name` the bare
file name, `path` the joined path and `size` the on-disk size. -/
def walkTree (root : String) : FsTree → List FileRecord
  | FsTree.file nm sz => [⟨nm, pjoin root nm, sz⟩]
  | FsTree.dir nm entries => walkForest (pjoin root nm) entries

/-- `walkTree` over the entries of one directory, in order. -/
def walkForest (root : String) : List FsTree → List FileRecord
  | [] => []
  | t :: ts => walkTree root t ++ walkForest root ts

end

/- ===== bot.py: inline class ArchiveManager ===== -/

namespace BotAM

/-- bot.py lines 81-86: `can_extract_archive`.  The extension is the
`os.path.splitext` suffix of the lowercased name, so `.tar.gz` itself can
never match (its splitext extension is `.gz`, which is in the set). -/
def can_extract_archive (filename : String) : Bool :=
  let file_ext := (splitext (pyLower filename)).2
  [".apk", ".zip", ".7z", ".tar", ".gz", ".tar.gz", ".rar"].contains file_ext

/-- bot.py lines 88-93: `is_archive_file`. -/
def is_archive_file (filename : String) : Bool :=
  let file_ext := (splitext (pyLower filename)).2
  [".zip", ".7z", ".tar", ".gz", ".tar.gz", ".rar", ".apk"].contains file_ext

/-- bot.py lines 170-227: `extract_archive` and the two extractors it
dispatches to (`_extract_7z` via py7zr for `.7z`, `_extract_generic` via
patool otherwise).  Both extractors materialize the archive under
`extract_dir` and then walk the produced tree with `os.walk`, taking each
size from `os.path.getsize`.  The codec call is modelled by its outcome:
`some forest` is the directory tree it materialized, `none` a raised
codec error, which the source catches and converts to `[]`.  This is the
common path-insensitive behaviour of both dispatch branches, used where
the extension dispatch is irrelevant; `extract_archive_by_path` below
makes that dispatch explicit. -/
def extract_archive (extract_dir : String) (outcome : Option (List FsTree)) :
    List FileRecord :=
  match outcome with
  | none => []
  | some forest => walkForest extract_dir forest

/-- bot.py lines 182-204: `_extract_7z` - py7zr extracts the archive into
`extract_dir`, the produced tree is walked with `os.walk` +
`os.path.getsize`, and a py7zr error is caught, yielding `[]`. -/
def _extract_7z (archive_path extract_dir : String)
    (outcome : Option (List FsTree)) : List FileRecord :=
  match outcome with
  | none => []
  | some forest => walkForest extract_dir forest

/-- bot.py lines 206-227: `_extract_generic` - `patoolib.extract_archive`
materializes the archive into `extract_dir` (patool attempts *any*
format it recognizes, `.rar` included), the produced tree is walked the
same way, and a patool error is caught, yielding `[]`. -/
def _extract_generic (archive_path extract_dir : String)
    (outcome : Option (List FsTree)) : List FileRecord :=
  match outcome with
  | none => []
  | some forest => walkForest extract_dir forest

/-- bot.py lines 170-180: `extract_archive` with its extension dispatch
made explicit - a path ending in `.7z` (after `str.lower`) goes to
`_extract_7z`, and *every* other path, whatever its extension, is handed
to `_extract_generic` (patool); nothing is refused by extension. -/
def extract_archive_by_path (archive_path extract_dir : String)
    (outcome : Option (List FsTree)) : List FileRecord :=
  if pyEndswith (pyLower archive_path) ".7z" then
    _extract_7z archive_path extract_dir outcome
  else
    _extract_generic archive_path extract_dir outcome

end BotAM

/- ===== archive_manager.py (standalone module) ===== -/

namespace AM

/-- An entry of `zipfile.ZipFile.infolist()`: member name, directory flag
(`is_dir()`), and the *stored* uncompressed size field `file_size` from
the zip central directory (archive metadata, not the materialized file). -/
structure ZipEntry where
  filename : String
  is_dir : Bool
  file_size : Nat
deriving Repr, DecidableEq

/-- An entry of `py7zr.SevenZipFile.list()`: member name, directory flag,
and its `compressed` byte count (archive metadata: the size of the
member's compressed representation). -/
structure SevenZEntry where
  filename : String
  is_directory : Bool
  compressed : Nat
deriving Repr, DecidableEq

/-- A member of `tarfile.TarFile.getmembers()`: name, regular-file flag
(`isfile()`), and the header `size` field (archive metadata). -/
structure TarMember where
  name : String
  is_file : Bool
  size : Nat
deriving Repr, DecidableEq

/-- archive_manager.py lines 106-120: `_extract_zip`.  After
`zipf.extractall(extract_dir)` it iterates `zipf.infolist()` and records,
for each non-directory entry, `size = file_info.file_size` - the size
field stored in the archive's metadata. -/
def _extract_zip (extract_dir : String) (entries : List ZipEntry) :
    List FileRecord :=
  (entries.filter (fun e => !e.is_dir)).map
    (fun e => ⟨e.filename, pjoin extract_dir e.filename, e.file_size⟩)

/-- archive_manager.py lines 122-136: `_extract_7z`.  After
`sevenzf.extractall(extract_dir)` it iterates `sevenzf.list()` and
records, for each non-directory entry, `size = file_info.compressed` -
the member's *compressed* size from the archive's metadata, not the size
of the materialized file. -/
def _extract_7z (extract_dir : String) (entries : List SevenZEntry) :
    List FileRecord :=
  (entries.filter (fun e => !e.is_directory)).map
    (fun e => ⟨e.filename, pjoin extract_dir e.filename, e.compressed⟩)

/-- archive_manager.py lines 138-151: `_extract_tar`.  Records, for each
regular member, `size = member.size` - the tar header's size field. -/
def _extract_tar (extract_dir : String) (members : List TarMember) :
    List FileRecord :=
  (members.filter (fun m => m.is_file)).map
    (fun m => ⟨m.name, pjoin extract_dir m.name, m.size⟩)

/-- archive_manager.py lines 153-156: `_extract_tar_gz` delegates to
`_extract_tar`. -/
def _extract_tar_gz (extract_dir : String) (members : List TarMember) :
    List FileRecord :=
  _extract_tar extract_dir members

/-- The codec listings available to one `extract_archive` call; a `none`
component models the corresponding codec library raising (corrupt or
unreadable archive), which the private extractors do not catch. -/
structure ExtractEnv where
  zip : Option (List ZipEntry)
  sevenz : Option (List SevenZEntry)
  tar : Option (List TarMember)

/-- archive_manager.py lines 81-104: `extract_archive`.  Dispatch is by
(case-sensitive) `str.endswith` on the path, in source order; an
extension outside `.zip/.7z/.tar/.tar.gz/.tgz/.apk` is refused with `[]`
(`.apk` is handled as a ZIP container).  The outer `try/except` converts
any codec exception (a `none` listing) to `[]`, so the caller only sees a
list and no exception escapes. -/
def extract_archive (archive_path extract_dir : String) (env : ExtractEnv) :
    List FileRecord :=
  let res : Option (List FileRecord) :=
    if pyEndswith archive_path ".zip" then
      (env.zip).map (_extract_zip extract_dir)
    else if pyEndswith archive_path ".7z" then
      (env.sevenz).map (_extract_7z extract_dir)
    else if pyEndswith archive_path ".tar" then
      (env.tar).map (_extract_tar extract_dir)
    else if pyEndswith archive_path ".tar.gz" || pyEndswith archive_path ".tgz" then
      (env.tar).map (_extract_tar_gz extract_dir)
    else if pyEndswith archive_path ".apk" then
      (env.zip).map (_extract_zip extract_dir)
    else
      some []
  match res with
  | none => []
  | some l => l

/-- archive_manager.py lines 32-42 (and the analogous `_create_7z`,
`_create_tar`, `_create_tar_gz`): each private creator loops over the
files writing them into the archive and returns `True`, catching any
codec exception and returning `False`.  The codec write pass is modelled
by its outcome `op` (`none` = the codec library raised). -/
def _create_zip (files : List FileRecord) (output_path : String)
    (op : Option Unit) : Bool :=
  match op with
  | some _ => true
  | none => false

/-- archive_manager.py lines 44-54: `_create_7z` (same failure shape). -/
def _create_7z (files : List FileRecord) (output_path : String)
    (op : Option Unit) : Bool :=
  match op with
  | some _ => true
  | none => false

/-- archive_manager.py lines 56-66: `_create_tar`. -/
def _create_tar (files : List FileRecord) (output_path : String)
    (op : Option Unit) : Bool :=
  match op with
  | some _ => true
  | none => false

/-- archive_manager.py lines 68-78: `_create_tar_gz`. -/
def _create_tar_gz (files : List FileRecord) (output_path : String)
    (op : Option Unit) : Bool :=
  match op with
  | some _ => true
  | none => false

/-- archive_manager.py lines 14-29: `compile_archive`.  String dispatch on
the format; an unknown format is logged and yields `False`; the outer
`try/except` also yields `False`, so the result is always a plain
boolean. -/
def compile_archive (files : List FileRecord) (output_path : String)
    (format_type : String) (op : Option Unit) : Bool :=
  if format_type = "zip" then _create_zip files output_path op
  else if format_type = "7z" then _create_7z files output_path op
  else if format_type = "tar" then _create_tar files output_path op
  else if format_type = "tar.gz" then _create_tar_gz files output_path op
  else false

/-- archive_manager.py lines 186-192: `can_extract_archive` (this module's
variant checks `str.endswith` against the six extractable suffixes). -/
def can_extract_archive (filename : String) : Bool :=
  [".zip", ".7z", ".tar", ".tar.gz", ".tgz", ".apk"].any
    (fun ext => pyEndswith (pyLower filename) ext)

end AM

/- ===== bot.py: class FileCompilationBot (session store + orchestration) ===== -/

namespace Bot

/-- One entry of `self.user_sessions` (bot.py lines 333-338): the stored
file records, the per-user scratch directory, and the pending-confirmation
flag `waiting_confirmation` (the `extracted_files` field initialized there
is never read or written again and is omitted). -/
structure UserSession where
  files : List FileRecord
  temp_dir : String
  waiting_confirmation : Option String
deriving Repr, DecidableEq

/-- bot.py lines 328-338: `initialize_user_session`.  The scratch
directory is `TEMP_DIR/user_<id>`; the session starts empty with no
pending confirmation. -/
def initialize_user_session (user_id : Nat) : UserSession :=
  { files := []
    temp_dir := pjoin Config.TEMP_DIR ("user_" ++ toString user_id)
    waiting_confirmation := none }

/-- The k-th probed file name of the collision loop in bot.py lines
796-803: the suggested name itself for `k = 0`, and
`f"{name}_{k}{ext}"` (with `name, ext = splitext(original_name)`) for
`k >= 1`. -/
def candidate (original_name : String) : Nat → String
  | 0 => original_name
  | Nat.succ k =>
    let ne := splitext original_name
    ne.1 ++ "_" ++ toString (k + 1) ++ ne.2

/-- The probing loop of bot.py lines 796-803: starting at candidate `k`,
keep advancing while the joined path already exists on disk.  The source
loop runs until a free path is found; `fuel` bounds the recursion in this
embedding and is chosen large enough (`|disk| + 1` in `dedup`) that it is
never exhausted when some probed candidate is free. -/
def probe (temp_dir : String) (disk : List String) (original_name : String) :
    Nat → Nat → String × String
  | 0, k => (candidate original_name k, pjoin temp_dir (candidate original_name k))
  | fuel + 1, k =>
    let file_name := candidate original_name k
    let file_path := pjoin temp_dir file_name
    if disk.contains file_path then probe temp_dir disk original_name fuel (k + 1)
    else (file_name, file_path)

/-- The unique-filename computation of bot.py lines 792-803: probe
`name, name_1, name_2, ...` against the existing paths and return the
first free `(file_name, file_path)` pair. -/
def dedup (temp_dir : String) (disk : List String) (original_name : String) :
    String × String :=
  probe temp_dir disk original_name (disk.length + 1) 0

/-- Outcome classification of `handle_file` (which of the source's reply
branches was taken). -/
inductive AddOutcome where
  | ok (rec : FileRecord)
  | limitExceeded
  | sizeExceeded
  | ioError
deriving Repr, DecidableEq

/-- bot.py lines 737-841: `handle_file`, the inbound-upload path
(modelled on the `document` branch; the photo/video/audio branches differ
only in how the suggested name and declared size are read from the
message).  Inputs: the session, the set of paths existing on disk
(`os.path.exists` probes), the suggested file name (`None` falls back to
`"document"`), the size declared by the transport
(`document.file_size or 0`), and the download outcome - `some n` means
`download_to_drive` succeeded and the materialized file is `n` bytes
(`os.path.getsize`), `none` means it raised (caught, session unchanged).
Order of checks as in the source: count cap, then declared size, then
name de-duplication, then download and append. -/
def handle_file (s : UserSession) (disk : List String)
    (suggested : Option String) (declared_size : Nat)
    (download : Option Nat) : AddOutcome × UserSession × List String :=
  if Config.MAX_FILES_PER_USER ≤ s.files.length then
    (AddOutcome.limitExceeded, s, disk)
  else
    let file_name := Utils.safe_filename (suggested.getD "document")
    if Config.MAX_FILE_SIZE < declared_size then
      (AddOutcome.sizeExceeded, s, disk)
    else
      let nf := dedup s.temp_dir disk file_name
      match download with
      | none => (AddOutcome.ioError, s, disk)
      | some actual_size =>
        let file_record : FileRecord := ⟨nf.1, nf.2, actual_size⟩
        (AddOutcome.ok file_record,
          { s with files := s.files ++ [file_record] }, nf.2 :: disk)

/-- bot.py lines 589-602: `create_archive`.  Empty file list yields
`None`; otherwise the archive path is
`temp_dir/compiled_files_<uid>_<n>files.<format>` and the result follows
the `ArchiveManager.compile_archive` outcome (modelled by `compile_ok`):
the path on success, `None` on failure. -/
def create_archive (s : UserSession) (user_id : Nat) (format_type : String)
    (compile_ok : Bool) : Option String :=
  if s.files.isEmpty then none
  else
    let archive_name :=
      "compiled_files_" ++ toString user_id ++ "_" ++
        toString s.files.length ++ "files." ++ format_type
    let archive_path := pjoin s.temp_dir archive_name
    if compile_ok then some archive_path else none

/-- Outcome classification of `handle_confirm_creation`: the archive was
delivered (reply_document succeeded and the file was then removed), or
the creation failed. -/
inductive ConfirmOutcome where
  | delivered (path : String)
  | failed
deriving Repr, DecidableEq

/-- bot.py lines 510-547: `handle_confirm_creation`.  On a successful
`create_archive` the archive (which the compile step wrote to disk) is
sent to the user and then deleted with `os.remove`, and
`waiting_confirmation` is cleared; on failure nothing is touched and a
failure message is shown. -/
def handle_confirm_creation (user_id : Nat) (s : UserSession)
    (disk : List String) (format_type : String) (compile_ok : Bool) :
    ConfirmOutcome × UserSession × List String :=
  match create_archive s user_id format_type compile_ok with
  | some archive_path =>
    let disk_after_compile := archive_path :: disk
    let disk_after_remove := disk_after_compile.filter (fun p => p ≠ archive_path)
    (ConfirmOutcome.delivered archive_path,
      { s with waiting_confirmation := none },
      disk_after_remove)
  | none => (ConfirmOutcome.failed, s, disk)

/-- The inner `for extracted_file in extracted_files` loop of bot.py
lines 623-633: append records until `len(files) >= MAX_FILES_PER_USER`,
at which point the loop `break`s; `total` counts the appended records. -/
def addExtracted (files : List FileRecord) (total : Nat) :
    List FileRecord → List FileRecord × Nat
  | [] => (files, total)
  | e :: es =>
    if Config.MAX_FILES_PER_USER ≤ files.length then (files, total)
    else addExtracted (files ++ [⟨e.name, e.path, e.size⟩]) (total + 1) es

/-- The per-archive extraction directory of bot.py line 616:
`temp_dir/extracted_<splitext(name)[0]>`. -/
def extraction_dir (temp_dir : String) (archive_name : String) : String :=
  pjoin temp_dir ("extracted_" ++ (splitext archive_name).1)

/-- bot.py lines 604-639: `extract_all_archives`.  The extractable files
are selected up front from the session's current list; each is extracted
by the inline `ArchiveManager.extract_archive` into its own
`extracted_<stem>` directory and the resulting records are appended up to
the per-user cap.  `outcome a` is the directory forest the codec
materialized for archive `a` (`none` = the extraction raised; together
with `extract_archive`'s own catch-all this makes a failed archive
contribute `[]` and the loop continue with the next archive).  Returns
the updated session, the total number of merged records, and the
extraction directories used, in order. -/
def extract_all_archives (s : UserSession)
    (outcome : FileRecord → Option (List FsTree)) :
    UserSession × Nat × List String :=
  let extractable_files := s.files.filter (fun f => BotAM.can_extract_archive f.name)
  let step := fun (acc : List FileRecord × Nat) (archive_file : FileRecord) =>
    let extract_dir := extraction_dir s.temp_dir archive_file.name
    let extracted_files := BotAM.extract_archive extract_dir (outcome archive_file)
    addExtracted acc.1 acc.2 extracted_files
  let r := extractable_files.foldl step (s.files, 0)
  ({ s with files := r.1 }, r.2,
    extractable_files.map (fun a => extraction_dir s.temp_dir a.name))

end Bot

/- ===== The user-visible interaction state machine ===== -/

/-- The state relevant to one user's interaction: the session, the paths
existing on disk, and which confirmation prompt (if any) is currently
displayed to the user - `prompt` tracks the inline keyboard the source
last rendered (`some op` when a confirm/cancel keyboard for `op` is on
screen, `none` when the last rendering carried no confirmation
keyboard). -/
structure UiState where
  session : Bot.UserSession
  disk : List String
  prompt : Option String
deriving Repr, DecidableEq

/-- An external event dispatched to the bot for one user: an inbound file
or one of the inline-keyboard callbacks that touch session state.  The
`Option (List FsTree)`-valued components carry the codec/filesystem
outcomes of the event, as in `Bot.handle_file` and
`Bot.extract_all_archives`. -/
inductive Event where
  | upload (suggested : Option String) (declared_size : Nat) (download : Option Nat)
  | pressCreate (format_type : String)
  | pressExtractAll
  | pressConfirmCreation (user_id : Nat) (format_type : String) (compile_ok : Bool)
  | pressConfirmExtraction (outcome : FileRecord → Option (List FsTree))
  | pressCancel
  | clearFiles (user_id : Nat)

/-- One dispatch of bot.py's `handle_file`/`handle_callback` for a single
user, as a transition on `UiState`:
- `upload`: lines 737-841 (`handle_file`); replies with the main
  keyboard, so any staged confirmation message stays on screen (`prompt`
  unchanged);
- `pressCreate`: lines 421-453 (`handle_create_archive`); with no files
  it shows an error with the back keyboard, otherwise it stages
  `waiting_confirmation = "create_<fmt>"` and renders the confirm
  keyboard;
- `pressExtractAll`: lines 455-484 (`handle_extract_all`); with no
  extractable files it shows an error, otherwise it renders the
  extract-all confirm keyboard - without touching `waiting_confirmation`;
- `pressConfirmCreation`: lines 510-547 (`handle_confirm_creation`); the
  confirmation message is replaced either way, so `prompt` clears;
- `pressConfirmExtraction`: lines 549-577 + 604-639; runs
  `extract_all_archives` and replaces the message; `waiting_confirmation`
  is not touched;
- `pressCancel`: lines 579-587 (`handle_cancel_operation`); clears
  `waiting_confirmation` unconditionally;
- `clearFiles`: lines 665-681 (`handle_clear_files`); removes the scratch
  directory recursively and reinitializes the session. -/
def ui_step (st : UiState) : Event → UiState
  | Event.upload suggested declared download =>
    let r := Bot.handle_file st.session st.disk suggested declared download
    { st with session := r.2.1, disk := r.2.2 }
  | Event.pressCreate format_type =>
    if st.session.files.isEmpty then { st with prompt := none }
    else
      { st with
        session := { st.session with
          waiting_confirmation := some ("create_" ++ format_type) }
        prompt := some ("create_" ++ format_type) }
  | Event.pressExtractAll =>
    let archive_files :=
      st.session.files.filter (fun f => BotAM.can_extract_archive f.name)
    if archive_files.isEmpty then { st with prompt := none }
    else { st with prompt := some "extract_all" }
  | Event.pressConfirmCreation user_id format_type compile_ok =>
    let r := Bot.handle_confirm_creation user_id st.session st.disk format_type compile_ok
    { session := r.2.1, disk := r.2.2, prompt := none }
  | Event.pressConfirmExtraction outcome =>
    let r := Bot.extract_all_archives st.session outcome
    { st with session := r.1, prompt := none }
  | Event.pressCancel =>
    { st with
      session := { st.session with waiting_confirmation := none }
      prompt := none }
  | Event.clearFiles user_id =>
    { session := Bot.initialize_user_session user_id
      disk := st.disk.filter (fun p =>
        !pyStartswith p (st.session.temp_dir ++ "/"))
      prompt := none }

/-- The initial state for a user: a freshly initialized session, an empty
scratch directory, and no prompt. -/
def initState (user_id : Nat) : UiState :=
  { session := Bot.initialize_user_session user_id, disk := [], prompt := none }

/-- A run of the interaction machine over a list of events. -/
def uiRun (user_id : Nat) (events : List Event) : UiState :=
  events.foldl ui_step (initState user_id)

/-- The property claimed of `pending_operation` (spec §3):
`waiting_confirmation` is set if and only if a confirmation prompt is
outstanding. -/
def pendingMatchesPrompt (st : UiState) : Prop :=
  st.session.waiting_confirmation.isSome = st.prompt.isSome

/- ===== Theorems ===== -/

/-- The division loop's counter never passes 3, the last unit index: one
fueled step of the obvious downward induction. -/
theorem ffsLoop_snd_le :
    ∀ (fuel : Nat) (q : ℚ) (i : Nat), 3 - i ≤ fuel → i ≤ 3 →
      (Utils.ffsLoop q i).2 ≤ 3 := by
  intro fuel
  induction fuel with
  | zero =>
    intro q i hfuel hi
    have hi3 : i = 3 := by omega
    subst hi3
    rw [Utils.ffsLoop]
    have : ¬ (1024 ≤ q ∧ 3 < Utils.size_names.length - 1) := by
      simp [Utils.size_names]
    simp [this]
  | succ fuel ih =>
    intro q i hfuel hi
    rw [Utils.ffsLoop]
    split
    · next h =>
      have hlt : i < 3 := by
        have := h.2
        simpa [Utils.size_names] using this
      exact ih (q / 1024) (i + 1) (by omega) (by omega)
    · simpa using hi

/-- C10: for every non-negative integer size, `format_file_size`
terminates - its division loop runs at most three times, bounded by the
unit list - and returns a string whose unit suffix is one of B, KB, MB,
GB, with 0 mapped to "0 B". -/
theorem C10_format_file_size (n : Nat) :
    (Utils.ffsLoop (n : ℚ) 0).2 ≤ 3 ∧
    Utils.format_file_size 0 = "0 B" ∧
    ∃ u, u ∈ Utils.size_names ∧
      Utils.format_file_size n =
        (if n = 0 then "0" else Utils.fmt2 (Utils.ffsLoop (n : ℚ) 0).1) ++
          " " ++ u := by
  have hle : (Utils.ffsLoop (n : ℚ) 0).2 ≤ 3 := ffsLoop_snd_le 3 _ 0 (by omega) (by omega)
  refine ⟨hle, by decide, ?_⟩
  by_cases h0 : n = 0
  · subst h0
    exact ⟨"B", by decide, by decide⟩
  · refine ⟨Utils.size_names.getD (Utils.ffsLoop (n : ℚ) 0).2 "", ?_, ?_⟩
    · have h4 : (Utils.ffsLoop (n : ℚ) 0).2 = 0 ∨ (Utils.ffsLoop (n : ℚ) 0).2 = 1 ∨
          (Utils.ffsLoop (n : ℚ) 0).2 = 2 ∨ (Utils.ffsLoop (n : ℚ) 0).2 = 3 := by omega
      rcases h4 with h | h | h | h <;> rw [h] <;> decide
    · simp [Utils.format_file_size, h0]

/-- The accumulator of `PyUtils.basenameList` never contains a `'/'`:
it is reset whenever a separator is consumed. -/
theorem basenameList_no_sep :
    ∀ (cs acc : List Char), (∀ c ∈ acc, c ≠ '/') →
      ∀ c ∈ cs.foldl (fun acc c => if c = '/' then [] else acc ++ [c]) acc, c ≠ '/' := by
  intro cs
  induction cs with
  | nil => intro acc hacc; simpa using hacc
  | cons c cs ih =>
    intro acc hacc
    simp only [List.foldl_cons]
    by_cases hc : c = '/'
    · simp only [hc, if_pos rfl]
      exact ih [] (by simp)
    · simp only [if_neg hc]
      refine ih (acc ++ [c]) ?_
      intro x hx
      rcases List.mem_append.mp hx with h | h
      · exact hacc x h
      · simp at h; subst h; exact hc

/-- C9 counterexample: `utils.py`'s `safe_filename` is `os.path.basename`,
which only strips up to the last `'/'`; on the input `a\b.txt` the
returned name still contains the path separator `'\'`, so the claim that
for every input string the result contains no `'/'` or `'\'` is false. -/
theorem C9_counterexample :
    PyUtils.safe_filename "a\\b.txt" = "a\\b.txt" ∧
    '\\' ∈ (PyUtils.safe_filename "a\\b.txt").data := by
  constructor <;> decide

/-- C9 amended: restricted to ASCII inputs, bot.py's
`Utils.safe_filename` replaces every character outside `[A-Za-z0-9_.-]`
with `'_'`, so its result contains neither `'/'` nor `'\'` and the path
joined under the user's scratch directory cannot escape it; utils.py's
`safe_filename` (POSIX `os.path.basename`) only guarantees the absence of
`'/'` - a `'\'` is retained, as the counterexample shows.  (The ASCII
restriction reflects that Python's `\w` additionally keeps non-ASCII
word characters; `'/'` and `'\'` are non-word either way.) -/
theorem C9_safe_filename_amended (s : String)
    (hascii : ∀ c ∈ s.data, c.toNat < 128) :
    (∀ c ∈ (Utils.safe_filename s).data,
        (Utils.isAsciiWordChar c || c = '.' || c = '-') = true ∧
        c ≠ '/' ∧ c ≠ '\\') ∧
    ∀ c ∈ (PyUtils.safe_filename s).data, c ≠ '/' := by
  constructor
  · intro c hc
    simp only [Utils.safe_filename] at hc
    obtain ⟨c', hc', rfl⟩ := List.mem_map.mp hc
    by_cases hcond : (Utils.isAsciiWordChar c' || c' = '.' || c' = '-') = true
    · rw [if_pos hcond]
      refine ⟨hcond, ?_, ?_⟩
      · rintro rfl; revert hcond; decide
      · rintro rfl; revert hcond; decide
    · rw [if_neg hcond]
      refine ⟨by decide, by decide, by decide⟩
  · intro c hc
    simp only [PyUtils.safe_filename, PyUtils.basenameList] at hc
    exact basenameList_no_sep s.data [] (by simp) c hc

/-- Witness for C9's amended theorem at a concrete mixed input. -/
theorem C9_safe_filename_amended_witness :
    (∀ c ∈ (Utils.safe_filename "a/b\\c!.txt").data,
        (Utils.isAsciiWordChar c || c = '.' || c = '-') = true ∧
        c ≠ '/' ∧ c ≠ '\\') ∧
    ∀ c ∈ (PyUtils.safe_filename "a/b\\c!.txt").data, c ≠ '/' :=
  C9_safe_filename_amended "a/b\\c!.txt" (by decide)

/-- The probing loop stops at the first free candidate: if every
candidate from `base` up to (excluding) `k` is occupied on disk and
candidate `k` is free, then with enough fuel the probe starting at `base`
returns candidate `k` and its joined path. -/
theorem probe_first_free (temp_dir : String) (disk : List String)
    (original_name : String) :
    ∀ (fuel base k : Nat), base ≤ k → k < base + fuel →
      (∀ j, base ≤ j → j < k →
        disk.contains (pjoin temp_dir (Bot.candidate original_name j)) = true) →
      disk.contains (pjoin temp_dir (Bot.candidate original_name k)) = false →
      Bot.probe temp_dir disk original_name fuel base =
        (Bot.candidate original_name k,
          pjoin temp_dir (Bot.candidate original_name k)) := by
  intro fuel
  induction fuel with
  | zero => intro base k hbk hk _ _; omega
  | succ fuel ih =>
    intro base k hbk hk hocc hfree
    rcases Nat.eq_or_lt_of_le hbk with rfl | hlt
    · have hfree' : pjoin temp_dir (Bot.candidate original_name base) ∉ disk := by
        simpa using hfree
      simp [Bot.probe, hfree']
    · have hb : disk.contains (pjoin temp_dir (Bot.candidate original_name base)) = true :=
        hocc base le_rfl hlt
      simp only [Bot.probe, hb, if_pos]
      exact ih (base + 1) k hlt (by omega) (fun j h1 h2 => hocc j (by omega) h2) hfree

/-- C8: an inbound file whose suggested name collides on disk is stored
under a de-duplicated name obtained by probing `name`, `name_1`,
`name_2`, ... until a free path is found (first conjunct: `dedup` returns
the first free candidate); in particular two uploads both named `a.txt`
into one session are stored as `a.txt` and `a_1.txt`, both present with
their own paths and contents (second conjunct, sizes 3 and 4 standing for
the two distinct contents). -/
theorem C8_name_dedup (temp_dir : String) (disk : List String)
    (original_name : String) (k : Nat)
    (hk : k ≤ disk.length)
    (hocc : ∀ j, j < k →
      disk.contains (pjoin temp_dir (Bot.candidate original_name j)) = true)
    (hfree : disk.contains (pjoin temp_dir (Bot.candidate original_name k)) = false) :
    Bot.dedup temp_dir disk original_name =
      (Bot.candidate original_name k,
        pjoin temp_dir (Bot.candidate original_name k)) ∧
    (uiRun 1 [Event.upload (some "a.txt") 3 (some 3),
              Event.upload (some "a.txt") 4 (some 4)]).session.files =
      [⟨"a.txt", "temp_files/user_1/a.txt", 3⟩,
       ⟨"a_1.txt", "temp_files/user_1/a_1.txt", 4⟩] := by
  constructor
  · exact probe_first_free temp_dir disk original_name (disk.length + 1) 0 k
      (Nat.zero_le k) (by omega) (fun j _ h2 => hocc j h2) hfree
  · decide

/-- Witness for C8 at a concrete collision: with `t/a.txt` on disk, the
suggestion `a.txt` is stored as `a_1.txt`. -/
theorem C8_name_dedup_witness :
    Bot.dedup "t" ["t/a.txt"] "a.txt" = ("a_1.txt", "t/a_1.txt") ∧
    (uiRun 1 [Event.upload (some "a.txt") 3 (some 3),
              Event.upload (some "a.txt") 4 (some 4)]).session.files =
      [⟨"a.txt", "temp_files/user_1/a.txt", 3⟩,
       ⟨"a_1.txt", "temp_files/user_1/a_1.txt", 4⟩] := by
  have h := C8_name_dedup "t" ["t/a.txt"] "a.txt" 1 (by decide)
    (by intro j hj; interval_cases j; decide) (by decide)
  exact ⟨by rw [h.1]; decide, h.2⟩

/-- C3 (code bug): on a 7z archive whose listing reports a member
`f.txt` with *compressed* size 100 while the materialized file on disk is
250 bytes, `archive_manager.py`'s `_extract_7z` returns a record of size
100 - the archive's compressed-metadata size - whereas the walk-based
extractor of bot.py (which the spec describes: `os.path.getsize` on the
materialized tree) returns 250.  The spec's design notes call the
metadata-size behaviour a bug to avoid, so the claim is right and
`archive_manager.py` is the slip. -/
theorem C3_metadata_size_divergence :
    AM._extract_7z "d" [⟨"f.txt", false, 100⟩] =
      [⟨"f.txt", "d/f.txt", 100⟩] ∧
    BotAM.extract_archive "d" (some [FsTree.file "f.txt" 250]) =
      [⟨"f.txt", "d/f.txt", 250⟩] ∧
    (100 : Nat) ≠ 250 := by
  refine ⟨by decide, ?_, by decide⟩
  simp [BotAM.extract_archive, walkForest, walkTree]
  decide

/-- C4 counterexample: the claim's named sources include bot.py's
`extract_archive` (lines 170-180), which refuses nothing by extension:
a `.rar` path - not among the claim's six extensions - is handed to
patool (`_extract_generic`), which supports rar; when that succeeds
(here materializing one 5-byte file) the result is non-empty, so
"an archive whose extension is not one of the six yields the empty list
(extraction refused)" is false of that implementation. -/
theorem C4_counterexample :
    BotAM.extract_archive_by_path "x.rar" "d" (some [FsTree.file "f" 5]) =
      [⟨"f", "d/f", 5⟩] ∧
    BotAM.extract_archive_by_path "x.rar" "d" (some [FsTree.file "f" 5]) ≠
      [] := by
  constructor <;> decide

/-- C4 amended: both implementations convert every codec error to a
benign value at the operation boundary - `compile_archive` always
returns a plain boolean (an unknown compile format or any codec error
yields `False`) and the extractors always return a plain list (any
extraction error yields `[]`; all four functions are total, no exception
escapes).  The refusal of unlisted extensions holds only for
archive_manager.py's `extract_archive`, whose dispatch list is exactly
`.zip/.7z/.tar/.tar.gz/.tgz/.apk`; bot.py's `extract_archive` instead
hands every non-`.7z` path to patool (see the counterexample). -/
theorem C4_error_policy (files : List FileRecord) (output_path : String)
    (format_type : String) (op : Option Unit)
    (archive_path extract_dir : String) (env : AM.ExtractEnv)
    (hfmt : format_type ∉ ["zip", "7z", "tar", "tar.gz"])
    (hext : ∀ suffix ∈ [".zip", ".7z", ".tar", ".tar.gz", ".tgz", ".apk"],
      pyEndswith archive_path suffix = false) :
    AM.compile_archive files output_path format_type op = false ∧
    (∀ fmt : String, AM.compile_archive files output_path fmt none = false) ∧
    AM.extract_archive archive_path extract_dir env = [] ∧
    (∀ (ap ed : String), AM.extract_archive ap ed ⟨none, none, none⟩ = []) ∧
    (∀ (ap ed : String), BotAM.extract_archive_by_path ap ed none = []) := by
  simp only [List.mem_cons, List.not_mem_nil, or_false, not_or] at hfmt
  obtain ⟨h1, h2, h3, h4⟩ := hfmt
  refine ⟨?_, ?_, ?_, ?_, ?_⟩
  · simp [AM.compile_archive, h1, h2, h3, h4]
  · intro fmt
    simp only [AM.compile_archive, AM._create_zip, AM._create_7z, AM._create_tar,
      AM._create_tar_gz]
    split_ifs <;> rfl
  · have e1 := hext ".zip" (by simp)
    have e2 := hext ".7z" (by simp)
    have e3 := hext ".tar" (by simp)
    have e4 := hext ".tar.gz" (by simp)
    have e5 := hext ".tgz" (by simp)
    have e6 := hext ".apk" (by simp)
    simp [AM.extract_archive, e1, e2, e3, e4, e5, e6]
  · intro ap ed
    simp only [AM.extract_archive]
    split_ifs <;> rfl
  · intro ap ed
    unfold BotAM.extract_archive_by_path BotAM._extract_7z BotAM._extract_generic
    split <;> rfl

/-- Witness for C4 at the concrete unsupported inputs `rar` / `x.rar`. -/
theorem C4_error_policy_witness :
    AM.compile_archive [] "out" "rar" (some ()) = false ∧
    (∀ fmt : String, AM.compile_archive [] "out" fmt none = false) ∧
    AM.extract_archive "x.rar" "d" ⟨some [], some [], some []⟩ = [] ∧
    (∀ (ap ed : String), AM.extract_archive ap ed ⟨none, none, none⟩ = []) ∧
    (∀ (ap ed : String), BotAM.extract_archive_by_path ap ed none = []) :=
  C4_error_policy [] "out" "rar" (some ()) "x.rar" "d" ⟨some [], some [], some []⟩
    (by decide) (by intro suffix hs; fin_cases hs <;> decide)

/-- The inner merge loop only appends: its result is the incoming list
extended by some `merged` suffix, and the counter advances by exactly the
number of appended records. -/
theorem addExtracted_append (es : List FileRecord) :
    ∀ (files : List FileRecord) (total : Nat),
      ∃ merged, Bot.addExtracted files total es =
        (files ++ merged, total + merged.length) := by
  induction es with
  | nil => intro files total; exact ⟨[], by simp [Bot.addExtracted]⟩
  | cons e es ih =>
    intro files total
    by_cases hcap : Config.MAX_FILES_PER_USER ≤ files.length
    · exact ⟨[], by simp [Bot.addExtracted, hcap]⟩
    · obtain ⟨m, hm⟩ := ih (files ++ [⟨e.name, e.path, e.size⟩]) (total + 1)
      refine ⟨⟨e.name, e.path, e.size⟩ :: m, ?_⟩
      rw [Bot.addExtracted, if_neg hcap, hm]
      simp
      omega

/-- The inner merge loop respects the per-user cap: if the incoming list
is within the cap, so is the result (the loop breaks at the cap). -/
theorem addExtracted_le (es : List FileRecord) :
    ∀ (files : List FileRecord) (total : Nat),
      files.length ≤ Config.MAX_FILES_PER_USER →
      (Bot.addExtracted files total es).1.length ≤ Config.MAX_FILES_PER_USER := by
  induction es with
  | nil => intro files total h; simpa [Bot.addExtracted] using h
  | cons e es ih =>
    intro files total h
    by_cases hcap : Config.MAX_FILES_PER_USER ≤ files.length
    · simpa [Bot.addExtracted, hcap] using h
    · rw [Bot.addExtracted, if_neg hcap]
      exact ih _ _ (by simp; omega)

/-- Folding the merge loop over a list of archives only appends, with the
counter tracking the appended records. -/
theorem foldl_addExtracted_append (g : FileRecord → List FileRecord) :
    ∀ (L files : List FileRecord) (total : Nat),
      ∃ merged,
        L.foldl (fun acc a => Bot.addExtracted acc.1 acc.2 (g a)) (files, total) =
          (files ++ merged, total + merged.length) := by
  intro L
  induction L with
  | nil => intro files total; exact ⟨[], by simp⟩
  | cons a L ih =>
    intro files total
    obtain ⟨m1, h1⟩ := addExtracted_append (g a) files total
    obtain ⟨m2, h2⟩ := ih (files ++ m1) (total + m1.length)
    refine ⟨m1 ++ m2, ?_⟩
    simp only [List.foldl_cons, h1, h2, List.append_assoc, List.length_append,
      Nat.add_assoc]

/-- Folding the merge loop over a list of archives respects the cap. -/
theorem foldl_addExtracted_le (g : FileRecord → List FileRecord) :
    ∀ (L files : List FileRecord) (total : Nat),
      files.length ≤ Config.MAX_FILES_PER_USER →
      (L.foldl (fun acc a => Bot.addExtracted acc.1 acc.2 (g a)) (files, total)).1.length ≤
        Config.MAX_FILES_PER_USER := by
  intro L
  induction L with
  | nil => intro files total h; simpa using h
  | cons a L ih =>
    intro files total h
    simp only [List.foldl_cons]
    obtain ⟨m1, h1⟩ := addExtracted_append (g a) files total
    rw [h1]
    have hle := addExtracted_le (g a) files total h
    rw [h1] at hle
    exact ih _ _ hle

/-- `extract_all_archives` only appends to the session's file list, and
returns exactly the number of appended records. -/
theorem extract_all_append (s : Bot.UserSession)
    (outcome : FileRecord → Option (List FsTree)) :
    ∃ merged, (Bot.extract_all_archives s outcome).1.files = s.files ++ merged ∧
      merged.length = (Bot.extract_all_archives s outcome).2.1 := by
  obtain ⟨m, hm⟩ := foldl_addExtracted_append
    (fun a => BotAM.extract_archive (Bot.extraction_dir s.temp_dir a.name) (outcome a))
    (s.files.filter (fun f => BotAM.can_extract_archive f.name)) s.files 0
  refine ⟨m, ?_, ?_⟩ <;> simp [Bot.extract_all_archives, hm]

/-- `extract_all_archives` respects the per-user cap. -/
theorem extract_all_le (s : Bot.UserSession)
    (outcome : FileRecord → Option (List FsTree))
    (h : s.files.length ≤ Config.MAX_FILES_PER_USER) :
    (Bot.extract_all_archives s outcome).1.files.length ≤
      Config.MAX_FILES_PER_USER := by
  have hle := foldl_addExtracted_le
    (fun a => BotAM.extract_archive (Bot.extraction_dir s.temp_dir a.name) (outcome a))
    (s.files.filter (fun f => BotAM.can_extract_archive f.name)) s.files 0 h
  simpa [Bot.extract_all_archives] using hle

/-- C5: `extract_all_archives` extracts each selected archive into its
own per-archive subdirectory and merges the members into the session
respecting the per-user cap (the session only grows, by exactly the
returned count, and never past the cap; the inner loop breaks rather than
erring at the cap).  The closing conjunct is the spec's scenario: with a
corrupt `c.zip` (codec raises, contributing 0) and a valid `v.tar` with
three members, extraction of the tar is not aborted, the merged count is
3, and the two per-archive directories `extracted_c` and `extracted_v`
are used. -/
theorem C5_extract_all_merge (s : Bot.UserSession)
    (outcome : FileRecord → Option (List FsTree))
    (hcap : s.files.length ≤ Config.MAX_FILES_PER_USER) :
    (∃ merged, (Bot.extract_all_archives s outcome).1.files = s.files ++ merged ∧
      merged.length = (Bot.extract_all_archives s outcome).2.1) ∧
    (Bot.extract_all_archives s outcome).1.files.length ≤
      Config.MAX_FILES_PER_USER ∧
    Bot.extract_all_archives
        ⟨[⟨"c.zip", "p1", 5⟩, ⟨"v.tar", "p2", 7⟩], "td", none⟩
        (fun f => if f.name = "v.tar" then
          some [FsTree.file "m1" 1, FsTree.dir "sub" [FsTree.file "m2" 2],
                FsTree.file "m3" 3]
          else none) =
      (⟨[⟨"c.zip", "p1", 5⟩, ⟨"v.tar", "p2", 7⟩,
         ⟨"m1", "td/extracted_v/m1", 1⟩, ⟨"m2", "td/extracted_v/sub/m2", 2⟩,
         ⟨"m3", "td/extracted_v/m3", 3⟩], "td", none⟩,
       3, ["td/extracted_c", "td/extracted_v"]) := by
  refine ⟨extract_all_append s outcome, extract_all_le s outcome hcap, ?_⟩
  simp [Bot.extract_all_archives, Bot.addExtracted, BotAM.extract_archive,
    walkForest, walkTree]
  decide

/-- Witness for C5 on a session already at three files. -/
theorem C5_extract_all_merge_witness :
    (∃ merged,
      (Bot.extract_all_archives ⟨[⟨"a.zip", "p", 1⟩], "td", none⟩
          (fun _ => some [FsTree.file "x" 2])).1.files =
        [⟨"a.zip", "p", 1⟩] ++ merged ∧
      merged.length =
        (Bot.extract_all_archives ⟨[⟨"a.zip", "p", 1⟩], "td", none⟩
          (fun _ => some [FsTree.file "x" 2])).2.1) ∧
    (Bot.extract_all_archives ⟨[⟨"a.zip", "p", 1⟩], "td", none⟩
        (fun _ => some [FsTree.file "x" 2])).1.files.length ≤
      Config.MAX_FILES_PER_USER ∧
    Bot.extract_all_archives
        ⟨[⟨"c.zip", "p1", 5⟩, ⟨"v.tar", "p2", 7⟩], "td", none⟩
        (fun f => if f.name = "v.tar" then
          some [FsTree.file "m1" 1, FsTree.dir "sub" [FsTree.file "m2" 2],
                FsTree.file "m3" 3]
          else none) =
      (⟨[⟨"c.zip", "p1", 5⟩, ⟨"v.tar", "p2", 7⟩,
         ⟨"m1", "td/extracted_v/m1", 1⟩, ⟨"m2", "td/extracted_v/sub/m2", 2⟩,
         ⟨"m3", "td/extracted_v/m3", 3⟩], "td", none⟩,
       3, ["td/extracted_c", "td/extracted_v"]) :=
  C5_extract_all_merge ⟨[⟨"a.zip", "p", 1⟩], "td", none⟩
    (fun _ => some [FsTree.file "x" 2]) (by decide)

/-- `handle_file` either leaves the session untouched (one of the
rejection/error branches) or, only below the cap, appends exactly one
record. -/
theorem handle_file_files_shape (s : Bot.UserSession) (disk : List String)
    (suggested : Option String) (declared_size : Nat) (download : Option Nat) :
    (Bot.handle_file s disk suggested declared_size download).2.1 = s ∨
    (s.files.length < Config.MAX_FILES_PER_USER ∧
      ∃ fr, (Bot.handle_file s disk suggested declared_size download).2.1.files =
        s.files ++ [fr]) := by
  unfold Bot.handle_file
  split
  · exact Or.inl rfl
  · next hcap =>
    split
    · exact Or.inl rfl
    · split
      · exact Or.inl rfl
      · exact Or.inr ⟨by omega, _, rfl⟩

/-- `handle_confirm_creation` never changes the session's file list. -/
theorem handle_confirm_creation_files (user_id : Nat) (s : Bot.UserSession)
    (disk : List String) (format_type : String) (compile_ok : Bool) :
    (Bot.handle_confirm_creation user_id s disk format_type compile_ok).2.1.files =
      s.files := by
  unfold Bot.handle_confirm_creation
  split <;> rfl

/-- Every dispatch step keeps the session's file count within the
per-user cap. -/
theorem ui_step_cap (st : UiState) (e : Event)
    (h : st.session.files.length ≤ Config.MAX_FILES_PER_USER) :
    (ui_step st e).session.files.length ≤ Config.MAX_FILES_PER_USER := by
  cases e with
  | upload suggested declared download =>
    rcases handle_file_files_shape st.session st.disk suggested declared download with
      hsame | ⟨hlt, fr, happ⟩
    · simpa [ui_step, hsame] using h
    · simp only [ui_step, happ, List.length_append, List.length_cons,
        List.length_nil]
      omega
  | pressCreate format_type =>
    simp only [ui_step]
    split <;> simpa using h
  | pressExtractAll =>
    simp only [ui_step]
    split <;> simpa using h
  | pressConfirmCreation user_id format_type compile_ok =>
    simpa [ui_step, handle_confirm_creation_files] using h
  | pressConfirmExtraction outcome =>
    simpa [ui_step] using extract_all_le st.session outcome h
  | pressCancel => simpa [ui_step] using h
  | clearFiles user_id => simp [ui_step, Bot.initialize_user_session]

/-- The cap invariant is preserved along any event sequence. -/
theorem uiFold_cap :
    ∀ (events : List Event) (st : UiState),
      st.session.files.length ≤ Config.MAX_FILES_PER_USER →
      (events.foldl ui_step st).session.files.length ≤ Config.MAX_FILES_PER_USER := by
  intro events
  induction events with
  | nil => intro st h; simpa using h
  | cons e es ih =>
    intro st h
    simp only [List.foldl_cons]
    exact ih (ui_step st e) (ui_step_cap st e h)

/-- C1: along every sequence of add-file operations (inbound uploads via
`handle_file` and extracted-file merges via `extract_all_archives`,
together with all other dispatches), the session's file count never
exceeds `MAX_FILES_PER_USER`; and an upload arriving with the list at (or
past) the cap is rejected with the limit-exceeded outcome, leaving both
the file list and the disk unchanged. -/
theorem C1_file_cap (events : List Event) (user_id : Nat) :
    (uiRun user_id events).session.files.length ≤ Config.MAX_FILES_PER_USER ∧
    ∀ (s : Bot.UserSession) (disk : List String) (suggested : Option String)
      (declared_size : Nat) (download : Option Nat),
      Config.MAX_FILES_PER_USER ≤ s.files.length →
      Bot.handle_file s disk suggested declared_size download =
        (Bot.AddOutcome.limitExceeded, s, disk) := by
  constructor
  · exact uiFold_cap events (initState user_id) (by simp [initState, Bot.initialize_user_session])
  · intro s disk suggested declared_size download hfull
    unfold Bot.handle_file
    rw [if_pos hfull]

/-- Witness for C1: a run stays within the cap, and an upload into a
session holding 100 records is rejected unchanged. -/
theorem C1_file_cap_witness :
    (uiRun 1 [Event.upload (some "a.txt") 3 (some 3)]).session.files.length ≤
      Config.MAX_FILES_PER_USER ∧
    Bot.handle_file ⟨List.replicate 100 ⟨"f", "p", 1⟩, "td", none⟩ []
        (some "b.txt") 1 (some 1) =
      (Bot.AddOutcome.limitExceeded,
        ⟨List.replicate 100 ⟨"f", "p", 1⟩, "td", none⟩, []) := by
  have h := C1_file_cap [Event.upload (some "a.txt") 3 (some 3)] 1
  exact ⟨h.1, h.2 _ _ _ _ _ (by simp [Config.MAX_FILES_PER_USER])⟩

/-- C2 counterexample: the claim that every `FileRecord` stored in a
session has `size <= MAX_FILE_SIZE` is false - records merged by
`extract_all_archives` are never size-checked.  Concretely: upload a
small `a.zip`, then confirm extract-all with the codec materializing a
member of `MAX_FILE_SIZE + 1` bytes; the session then stores an
oversized record. -/
theorem C2_counterexample :
    ¬ ∀ fr ∈ (uiRun 1 [Event.upload (some "a.zip") 10 (some 10),
        Event.pressConfirmExtraction
          (fun _ => some [FsTree.file "big.bin" (Config.MAX_FILE_SIZE + 1)])]).session.files,
      fr.size ≤ Config.MAX_FILE_SIZE := by
  intro h
  exact absurd (h ⟨"big.bin", "temp_files/user_1/extracted_a/big.bin",
    Config.MAX_FILE_SIZE + 1⟩ (by decide)) (by decide)

/-- C2 amended: the inbound path checks the declared size before
persisting - a file declared at exactly `MAX_FILE_SIZE` bytes is
accepted (and stored with the downloaded file's on-disk size), one
declared at `MAX_FILE_SIZE + 1` is rejected with the size-exceeded
outcome leaving session and disk unchanged - so every record stored via
`handle_file` with a truthful transport passes the check; records merged
from archive extraction bypass the check entirely (the counterexample). -/
theorem C2_inbound_size_boundary (s : Bot.UserSession) (disk : List String)
    (suggested : Option String) (actual_size : Nat)
    (h : s.files.length < Config.MAX_FILES_PER_USER) :
    (∃ fr : FileRecord,
      Bot.handle_file s disk suggested Config.MAX_FILE_SIZE (some actual_size) =
        (Bot.AddOutcome.ok fr, { s with files := s.files ++ [fr] },
          fr.path :: disk) ∧
      fr.size = actual_size) ∧
    ∀ download, Bot.handle_file s disk suggested (Config.MAX_FILE_SIZE + 1) download =
      (Bot.AddOutcome.sizeExceeded, s, disk) := by
  constructor
  · refine ⟨⟨(Bot.dedup s.temp_dir disk
        (Utils.safe_filename (suggested.getD "document"))).1,
      (Bot.dedup s.temp_dir disk
        (Utils.safe_filename (suggested.getD "document"))).2, actual_size⟩, ?_, rfl⟩
    unfold Bot.handle_file
    rw [if_neg (by omega), if_neg (by omega)]
  · intro download
    unfold Bot.handle_file
    rw [if_neg (by omega), if_pos (by omega)]

/-- Witness for C2's amended boundary on an empty session. -/
theorem C2_inbound_size_boundary_witness :
    (∃ fr : FileRecord,
      Bot.handle_file ⟨[], "t", none⟩ [] (some "a.bin") Config.MAX_FILE_SIZE
          (some 7) =
        (Bot.AddOutcome.ok fr, { Bot.UserSession.mk [] "t" none with
          files := [] ++ [fr] }, fr.path :: []) ∧
      fr.size = 7) ∧
    ∀ download, Bot.handle_file ⟨[], "t", none⟩ [] (some "a.bin")
        (Config.MAX_FILE_SIZE + 1) download =
      (Bot.AddOutcome.sizeExceeded, ⟨[], "t", none⟩, []) :=
  C2_inbound_size_boundary ⟨[], "t", none⟩ [] (some "a.bin") 7
    (by simp [Config.MAX_FILES_PER_USER])

/-- C6: a confirmed archive creation that succeeds delivers the archive
and then deletes it - the archive path no longer exists on disk - clears
`waiting_confirmation`, and leaves the session's records unchanged; a
failed creation leaves session and disk unchanged and reports failure. -/
theorem C6_confirm_creation_frame (user_id : Nat) (s : Bot.UserSession)
    (disk : List String) (format_type : String)
    (h : s.files ≠ []) :
    (∃ archive_path,
      (Bot.handle_confirm_creation user_id s disk format_type true).1 =
        Bot.ConfirmOutcome.delivered archive_path ∧
      (Bot.handle_confirm_creation user_id s disk format_type true).2.1 =
        { s with waiting_confirmation := none } ∧
      (Bot.handle_confirm_creation user_id s disk format_type true).2.1.files =
        s.files ∧
      archive_path ∉
        (Bot.handle_confirm_creation user_id s disk format_type true).2.2) ∧
    Bot.handle_confirm_creation user_id s disk format_type false =
      (Bot.ConfirmOutcome.failed, s, disk) := by
  have hne : s.files.isEmpty = false := by
    simpa [List.isEmpty_iff] using h
  constructor
  · refine ⟨pjoin s.temp_dir ("compiled_files_" ++ toString user_id ++ "_" ++
      toString s.files.length ++ "files." ++ format_type), ?_, ?_, ?_, ?_⟩ <;>
      simp [Bot.handle_confirm_creation, Bot.create_archive, hne]
  · simp [Bot.handle_confirm_creation, Bot.create_archive, hne]

/-- Witness for C6 on the spec's three-file session. -/
theorem C6_confirm_creation_frame_witness :
    (∃ archive_path,
      (Bot.handle_confirm_creation 1
          ⟨[⟨"a", "p", 1⟩, ⟨"b", "q", 2⟩, ⟨"c", "r", 3⟩], "td", some "create_tar.gz"⟩
          ["p", "q", "r"] "tar.gz" true).1 =
        Bot.ConfirmOutcome.delivered archive_path ∧
      (Bot.handle_confirm_creation 1
          ⟨[⟨"a", "p", 1⟩, ⟨"b", "q", 2⟩, ⟨"c", "r", 3⟩], "td", some "create_tar.gz"⟩
          ["p", "q", "r"] "tar.gz" true).2.1 =
        { Bot.UserSession.mk [⟨"a", "p", 1⟩, ⟨"b", "q", 2⟩, ⟨"c", "r", 3⟩] "td"
            (some "create_tar.gz") with waiting_confirmation := none } ∧
      (Bot.handle_confirm_creation 1
          ⟨[⟨"a", "p", 1⟩, ⟨"b", "q", 2⟩, ⟨"c", "r", 3⟩], "td", some "create_tar.gz"⟩
          ["p", "q", "r"] "tar.gz" true).2.1.files =
        [⟨"a", "p", 1⟩, ⟨"b", "q", 2⟩, ⟨"c", "r", 3⟩] ∧
      archive_path ∉
        (Bot.handle_confirm_creation 1
          ⟨[⟨"a", "p", 1⟩, ⟨"b", "q", 2⟩, ⟨"c", "r", 3⟩], "td", some "create_tar.gz"⟩
          ["p", "q", "r"] "tar.gz" true).2.2) ∧
    Bot.handle_confirm_creation 1
        ⟨[⟨"a", "p", 1⟩, ⟨"b", "q", 2⟩, ⟨"c", "r", 3⟩], "td", some "create_tar.gz"⟩
        ["p", "q", "r"] "tar.gz" false =
      (Bot.ConfirmOutcome.failed,
        ⟨[⟨"a", "p", 1⟩, ⟨"b", "q", 2⟩, ⟨"c", "r", 3⟩], "td", some "create_tar.gz"⟩,
        ["p", "q", "r"]) :=
  C6_confirm_creation_frame 1
    ⟨[⟨"a", "p", 1⟩, ⟨"b", "q", 2⟩, ⟨"c", "r", 3⟩], "td", some "create_tar.gz"⟩
    ["p", "q", "r"] "tar.gz" (by decide)

/-- C7 counterexample: the claimed iff between a set `pending_operation`
and an outstanding confirmation prompt fails on a reachable state - the
extract-all flow (bot.py lines 455-484) stages its confirmation prompt
without ever setting `waiting_confirmation`: after uploading `a.zip` and
pressing extract-all, the prompt is outstanding while
`waiting_confirmation` is `None`. -/
theorem C7_counterexample :
    ¬ pendingMatchesPrompt
        (uiRun 1 [Event.upload (some "a.zip") 10 (some 10),
          Event.pressExtractAll]) := by
  unfold pendingMatchesPrompt
  decide

/-- C7 amended: `waiting_confirmation` tracks only the create-archive
flow - staging a create-archive confirmation sets it together with the
prompt, cancel clears it, and a successful confirmed creation clears it;
but a failed confirmed creation leaves it set (only the prompt goes
away), and the extract-all prompt and confirmed extraction never touch
it, so "set iff a prompt is outstanding" does not hold (see the
counterexample). -/
theorem C7_pending_amended :
    (∀ (st : UiState) (fmt : String), st.session.files ≠ [] →
      (ui_step st (Event.pressCreate fmt)).session.waiting_confirmation =
          some ("create_" ++ fmt) ∧
      (ui_step st (Event.pressCreate fmt)).prompt = some ("create_" ++ fmt)) ∧
    (∀ st : UiState,
      (ui_step st Event.pressCancel).session.waiting_confirmation = none ∧
      (ui_step st Event.pressCancel).prompt = none) ∧
    (∀ (st : UiState) (user_id : Nat) (fmt : String), st.session.files ≠ [] →
      (ui_step st (Event.pressConfirmCreation user_id fmt true)).session.waiting_confirmation =
        none) ∧
    (∀ (st : UiState) (user_id : Nat) (fmt : String),
      (ui_step st (Event.pressConfirmCreation user_id fmt false)).session =
        st.session) ∧
    (∀ st : UiState, (ui_step st Event.pressExtractAll).session = st.session) ∧
    (∀ (st : UiState) (outcome : FileRecord → Option (List FsTree)),
      (ui_step st (Event.pressConfirmExtraction outcome)).session.waiting_confirmation =
        st.session.waiting_confirmation) := by
  refine ⟨?_, ?_, ?_, ?_, ?_, ?_⟩
  · intro st fmt hne
    have h : st.session.files.isEmpty = false := by simpa [List.isEmpty_iff] using hne
    constructor <;> simp [ui_step, h]
  · intro st; exact ⟨rfl, rfl⟩
  · intro st user_id fmt hne
    have h : st.session.files.isEmpty = false := by simpa [List.isEmpty_iff] using hne
    simp [ui_step, Bot.handle_confirm_creation, Bot.create_archive, h]
  · intro st user_id fmt
    simp [ui_step, Bot.handle_confirm_creation, Bot.create_archive]
  · intro st
    simp only [ui_step]
    split <;> rfl
  · intro st outcome
    simp [ui_step, Bot.extract_all_archives]

/-- Witness for C7's amended description at concrete states. -/
theorem C7_pending_amended_witness :
    (ui_step (uiRun 1 [Event.upload (some "a.txt") 3 (some 3)])
        (Event.pressCreate "zip")).session.waiting_confirmation =
      some ("create_" ++ "zip") ∧
    (ui_step (initState 1) Event.pressCancel).prompt = none ∧
    (ui_step (uiRun 1 [Event.upload (some "a.txt") 3 (some 3)])
        (Event.pressConfirmCreation 1 "zip" true)).session.waiting_confirmation =
      none :=
  ⟨(C7_pending_amended.1 _ "zip" (by decide)).1,
   (C7_pending_amended.2.1 _).2,
   C7_pending_amended.2.2.1 _ 1 "zip" (by decide)⟩
